import Mathlib

set_option maxHeartbeats 1000000

open scoped Classical

namespace CodeBeats

/-- Closed enumeration of waveform kinds, from `enum Waveform` in src/waveforms.rs. -/
inductive Waveform
  | Natural
  | Electronic
  | Saw
  | Square
  | Cyberpunk
  | Triangle
  | Fart
  | Bass
  deriving DecidableEq

/-- ADSR envelope parameters, from `struct ADSRParams` in src/audio_engine.rs.
f32 values are modelled as exact rationals. -/
structure ADSRParams where
  attack_time : ℚ
  decay_time : ℚ
  sustain_level : ℚ
  release_time : ℚ
  deriving DecidableEq

/-- Envelope phases, from `enum EnvelopeState` in src/audio_engine.rs. -/
inductive EnvelopeState
  | Attack
  | Decay
  | Sustain
  | Release
  deriving DecidableEq

/-- Per-voice state, from `struct NoteState` in src/audio_engine.rs.
The wall-clock field `start_time : Instant` is not representable in a pure
embedding; functions that read it (`update_smooth_hold_volume`) instead take
the elapsed hold duration as an explicit parameter. -/
structure NoteState where
  frequency : ℚ
  base_volume : ℚ
  phase : ℚ
  envelope_state : EnvelopeState
  envelope_time : ℚ
  adsr : ADSRParams
  waveform : Waveform
  current_hold_volume : ℚ
  target_hold_volume : ℚ
  deriving DecidableEq

/-- Constructor `NoteState::new` from src/audio_engine.rs. -/
def NoteState.new (frequency volume : ℚ) (adsr_params : ADSRParams)
    (waveform : Waveform) : NoteState :=
  { frequency := frequency
    base_volume := volume
    phase := 0
    envelope_state := EnvelopeState.Attack
    envelope_time := 0
    adsr := adsr_params
    waveform := waveform
    current_hold_volume := 1
    target_hold_volume := 1 }

/-- The f32 test `num / den >= 1.0` as evaluated by IEEE arithmetic, used to
embed the guard `progress >= 1.0` of the Release branch of
`NoteState::update_envelope`.  For `den > 0` it is `num ≥ den`; for `den = 0`
the quotient is `±∞` or NaN and the test holds exactly when `num > 0`; for
`den < 0` the test holds exactly when `num ≤ den`. -/
def divGE1 (num den : ℚ) : Bool :=
  if 0 < den then decide (den ≤ num)
  else if den = 0 then decide (0 < num)
  else decide (num ≤ den)

/-- `NoteState::update_envelope` from src/audio_engine.rs: advances
`envelope_time` by `dt`, possibly transitions the state, and returns the
amplitude multiplier together with the updated note. -/
def NoteState.update_envelope (st : NoteState) (dt : ℚ) : ℚ × NoteState :=
  let t := st.envelope_time + dt
  match st.envelope_state with
  | EnvelopeState.Attack =>
      if st.adsr.attack_time ≤ t then
        (1, { st with envelope_state := EnvelopeState.Decay, envelope_time := 0 })
      else
        let progress := t / st.adsr.attack_time
        (progress * progress, { st with envelope_time := t })
  | EnvelopeState.Decay =>
      if st.adsr.decay_time ≤ t then
        (st.adsr.sustain_level,
          { st with envelope_state := EnvelopeState.Sustain, envelope_time := 0 })
      else
        let progress := t / st.adsr.decay_time
        (1 - (1 - st.adsr.sustain_level) * progress * progress,
          { st with envelope_time := t })
  | EnvelopeState.Sustain => (st.adsr.sustain_level, { st with envelope_time := t })
  | EnvelopeState.Release =>
      if divGE1 t st.adsr.release_time then
        (0, { st with envelope_time := t })
      else
        let progress := t / st.adsr.release_time
        (st.adsr.sustain_level * (1 - progress * progress),
          { st with envelope_time := t })

/-- `NoteState::release` from src/audio_engine.rs. -/
def NoteState.release (st : NoteState) : NoteState :=
  if st.envelope_state = EnvelopeState.Release then st
  else { st with envelope_state := EnvelopeState.Release, envelope_time := 0 }

/-- `NoteState::is_finished` from src/audio_engine.rs. -/
def NoteState.is_finished (st : NoteState) (envelope_multiplier : ℚ) : Prop :=
  st.envelope_state = EnvelopeState.Release ∧ envelope_multiplier ≤ 0

instance (st : NoteState) (m : ℚ) : Decidable (st.is_finished m) := by
  unfold NoteState.is_finished; infer_instance

/-- Target volume by hold duration, from the `match hold_duration` table in
`NoteState::update_smooth_hold_volume` (src/audio_engine.rs). -/
def holdTargetVolume (hold_duration : ℚ) : ℚ :=
  if hold_duration < 1/2 then 1
  else if hold_duration < 1 then 8/10
  else if hold_duration < 2 then 6/10
  else if hold_duration < 3 then 4/10
  else if hold_duration < 5 then 2/10
  else 1/10

/-- `NoteState::update_smooth_hold_volume` from src/audio_engine.rs, with the
wall-clock `start_time.elapsed()` supplied as the `hold_duration` argument. -/
def NoteState.update_smooth_hold_volume (st : NoteState)
    (sample_rate hold_duration : ℚ) : NoteState :=
  let target := holdTargetVolume hold_duration
  let max_change_per_sample := (1/2) / sample_rate
  let current :=
    if st.current_hold_volume < target then
      min (st.current_hold_volume + max_change_per_sample) target
    else if target < st.current_hold_volume then
      max (st.current_hold_volume - max_change_per_sample) target
    else st.current_hold_volume
  { st with target_hold_volume := target, current_hold_volume := current }

/-- The phase update at the end of `NoteState::generate_sample`
(src/audio_engine.rs): add `frequency / sample_rate`, then subtract 1 once if
the result reached 1. -/
def wrapPhase (p : ℚ) : ℚ :=
  if 1 ≤ p then p - 1 else p

/-- The state mutation performed by one call to `NoteState::generate_sample`
(src/audio_engine.rs): the smooth-hold-volume update followed by the phase
update. -/
def NoteState.tickState (st : NoteState) (sample_rate hold_duration : ℚ) : NoteState :=
  let st1 := st.update_smooth_hold_volume sample_rate hold_duration
  { st1 with phase := wrapPhase (st1.phase + st.frequency / sample_rate) }

/-- Rust f32 truncation toward zero, used by the `%` and `.fract()` operations
in src/waveforms.rs. -/
noncomputable def truncR (x : ℝ) : ℤ :=
  if 0 ≤ x then ⌊x⌋ else ⌈x⌉

/-- Rust `x % 1.0` and `x.fract()` (both are `x - trunc x` for divisor 1),
used by the square, triangle and fart generators in src/waveforms.rs. -/
noncomputable def fract32 (x : ℝ) : ℝ :=
  x - truncR x

/-- `Waveform::generate_sine` from src/waveforms.rs. -/
noncomputable def generate_sine (base_phase : ℝ) : ℝ :=
  Real.sin base_phase

/-- `Waveform::generate_natural_piano` from src/waveforms.rs. -/
noncomputable def generate_natural_piano (phase base_phase _sample_rate : ℝ) : ℝ :=
  let fundamental := Real.sin base_phase
  let second_harmonic := Real.sin (base_phase * 2) * 0.3
  let third_harmonic := Real.sin (base_phase * 3) * 0.2
  let fourth_harmonic := Real.sin (base_phase * 4) * 0.1
  let vibrato_rate : ℝ := 4.5
  let vibrato_depth : ℝ := 0.02
  let vibrato := Real.sin (phase * vibrato_rate * 2 * Real.pi) * vibrato_depth
  let modulated_fundamental := Real.sin (base_phase * (1 + vibrato))
  (modulated_fundamental * 0.7 + fundamental * 0.3)
    + second_harmonic + third_harmonic + fourth_harmonic

/-- `Waveform::generate_sawtooth` from src/waveforms.rs. -/
noncomputable def generate_sawtooth (phase : ℝ) : ℝ :=
  2 * (phase - ⌊phase⌋) - 1

/-- `Waveform::generate_square` from src/waveforms.rs. -/
noncomputable def generate_square (phase : ℝ) : ℝ :=
  if fract32 phase < 0.5 then 1 else -1

/-- `Waveform::generate_cyberpunk` from src/waveforms.rs. -/
noncomputable def generate_cyberpunk (phase base_phase frequency sample_rate : ℝ) : ℝ :=
  let time := phase * sample_rate / frequency
  let osc1 := Real.sin base_phase
  let osc2 := Real.sin (base_phase * 1.003)
  let osc3 := Real.sin (base_phase * 0.997)
  let sub_osc := Real.sin (base_phase * 0.5) * 0.3
  let lfo_rate : ℝ := 0.3
  let lfo := Real.sin (time * lfo_rate * 2 * Real.pi)
  let lfo_mod := lfo * 0.1 + 1
  let mixed := (osc1 + osc2 * 0.8 + osc3 * 0.6) / 2.4 + sub_osc
  let modulated := mixed * lfo_mod
  Real.tanh modulated * 0.8

/-- `Waveform::generate_triangle` from src/waveforms.rs. -/
noncomputable def generate_triangle (phase : ℝ) : ℝ :=
  let t := fract32 phase
  if t < 0.5 then 4 * t - 1 else 3 - 4 * t

/-- `Waveform::generate_fart` from src/waveforms.rs. -/
noncomputable def generate_fart (phase base_phase frequency sample_rate : ℝ) : ℝ :=
  let time := phase * sample_rate / frequency
  let fart_freq := min (max (frequency * 0.15) 40) 150
  let fart_phase := base_phase * fart_freq / frequency
  let fundamental := Real.sin fart_phase * 0.8
  let harmonic2 := Real.sin (fart_phase * 2) * 0.4
  let harmonic3 := Real.sin (fart_phase * 3) * 0.25
  let harmonic4 := Real.sin (fart_phase * 4) * 0.15
  let sub_bass := Real.sin (fart_phase * 0.5) * 0.3
  let sweep_amount := Real.sin (time * 0.4) * 0.05
  let swept_fundamental := Real.sin (fart_phase * (1 + sweep_amount)) * 0.2
  let formant_freq1 : ℝ := 80
  let formant_freq2 : ℝ := 120
  let formant1 := Real.sin (fart_phase * formant_freq1 / fart_freq) * 0.3
  let formant2 := Real.sin (fart_phase * formant_freq2 / fart_freq) * 0.2
  let breath_rate : ℝ := 2
  let breath_mod := Real.sin (time * breath_rate) * 0.02 + 0.98
  let turbulence_seed := fract32 (time * 50)
  let gentle_turbulence := Real.sin (turbulence_seed * 100) * 0.05
  let tonal_mix :=
    fundamental + harmonic2 + harmonic3 + harmonic4 + sub_bass + swept_fundamental
  let formant_mix := tonal_mix + formant1 + formant2
  let modulated := formant_mix * breath_mod
  let final_output := (modulated + gentle_turbulence) * 0.4
  Real.tanh final_output

/-- `Waveform::generate_bass` from src/waveforms.rs. -/
noncomputable def generate_bass (phase base_phase frequency sample_rate : ℝ) : ℝ :=
  let time := phase * sample_rate / frequency
  let bass_phase := base_phase * 0.5
  let fundamental := Real.sin bass_phase * 1
  let sub_bass := Real.sin (bass_phase * 0.5) * 0.8
  let harmonic2 := Real.sin (bass_phase * 2) * 0.4
  let harmonic3 := Real.sin (bass_phase * 3) * 0.25
  let harmonic4 := Real.sin (bass_phase * 4) * 0.15
  let sub_harmonic := Real.sin (bass_phase * 0.25) * 0.6
  let lfo_rate : ℝ := 0.1
  let lfo := Real.sin (time * lfo_rate * 2 * Real.pi)
  let lfo_mod := lfo * 0.05 + 1
  let pitch_lfo := Real.sin (time * 0.08 * 2 * Real.pi) * 0.002
  let modulated_fundamental := Real.sin (bass_phase * (1 + pitch_lfo)) * 0.3
  let bass_mix := fundamental + sub_bass + sub_harmonic
    + harmonic2 * 0.8 + harmonic3 * 0.6 + harmonic4 * 0.4 + modulated_fundamental
  let modulated := bass_mix * lfo_mod
  let saturated := Real.tanh modulated * 0.9
  saturated * 0.7

/-- `Waveform::generate_sample` from src/waveforms.rs: dispatch over the kind. -/
noncomputable def Waveform.generate_sample (w : Waveform)
    (phase frequency sample_rate : ℝ) : ℝ :=
  let base_phase := phase * 2 * Real.pi
  match w with
  | Waveform.Electronic => generate_sine base_phase
  | Waveform.Natural => generate_natural_piano phase base_phase sample_rate
  | Waveform.Saw => generate_sawtooth phase
  | Waveform.Square => generate_square phase
  | Waveform.Cyberpunk => generate_cyberpunk phase base_phase frequency sample_rate
  | Waveform.Triangle => generate_triangle phase
  | Waveform.Fart => generate_fart phase base_phase frequency sample_rate
  | Waveform.Bass => generate_bass phase base_phase frequency sample_rate

/-- `NoteState::generate_sample` from src/audio_engine.rs: compute the waveform
sample at the current phase, update the smooth hold volume, scale by
base volume, envelope multiplier and hold volume, then advance and wrap the
phase.  The wall-clock hold duration is passed explicitly. -/
noncomputable def NoteState.generate_sample (st : NoteState)
    (sample_rate hold_duration envelope_multiplier : ℚ) : ℝ × NoteState :=
  let wave_sample : ℝ :=
    Waveform.generate_sample st.waveform (st.phase : ℝ) (st.frequency : ℝ) (sample_rate : ℝ)
  let st1 := st.update_smooth_hold_volume sample_rate hold_duration
  let final_sample : ℝ :=
    wave_sample * (st.base_volume : ℝ) * (envelope_multiplier : ℝ)
      * (st1.current_hold_volume : ℝ)
  (final_sample, { st1 with phase := wrapPhase (st1.phase + st.frequency / sample_rate) })

/-- Iterate `NoteState::update_envelope` for a number of sample ticks,
keeping only the evolving note state (as `AudioState::generate_sample` does
once per generated sample). -/
def envAfter (dt : ℚ) (st : NoteState) : ℕ → NoteState
  | 0 => st
  | k + 1 => ((envAfter dt st k).update_envelope dt).2

/-- The multiplier returned by `NoteState::update_envelope` on tick `k + 1`
(the tick that follows the first `k` ticks). -/
def envMultAt (dt : ℚ) (st : NoteState) (k : ℕ) : ℚ :=
  ((envAfter dt st k).update_envelope dt).1

/-- Decoded PCM buffer, from `struct AudioSample` in src/audio_samples.rs. -/
structure AudioSample where
  samples : List ℚ
  sample_rate : ℕ
  channels : ℕ
  deriving DecidableEq

/-- `AudioSample::duration` from src/audio_samples.rs. -/
def AudioSample.duration (a : AudioSample) : ℚ :=
  (a.samples.length : ℚ) / ((a.sample_rate : ℚ) * (a.channels : ℚ))

/-- `AudioSample::duration_at_sample_rate` from src/audio_samples.rs. -/
def AudioSample.duration_at_sample_rate (a : AudioSample) (target_sample_rate : ℚ) : ℚ :=
  a.duration * (target_sample_rate / (a.sample_rate : ℚ))

/-- `AudioSample::is_finished_at_sample_rate` from src/audio_samples.rs. -/
def AudioSample.is_finished_at_sample_rate (a : AudioSample)
    (time_seconds target_sample_rate : ℚ) : Prop :=
  a.duration_at_sample_rate target_sample_rate ≤ time_seconds

instance (a : AudioSample) (t r : ℚ) :
    Decidable (a.is_finished_at_sample_rate t r) := by
  unfold AudioSample.is_finished_at_sample_rate; infer_instance

/-- Rust f32 truncation toward zero on rationals (`.fract()` in
src/audio_samples.rs is `x - trunc x`). -/
def qtrunc (x : ℚ) : ℤ :=
  if 0 ≤ x then ⌊x⌋ else ⌈x⌉

/-- `AudioSample::get_sample_at_time` from src/audio_samples.rs, with the value
read at an out-of-bounds index made explicit as the extra parameter `d`
(Rust's `as usize` cast saturates negative positions to 0, modelled by
`Int.toNat`).  The source bounds-checks every read, so the result never
depends on `d`; that independence is the memory-safety statement proved
below. -/
def AudioSample.get_sample_at_time_d (a : AudioSample) (d : ℚ)
    (time_seconds target_sample_rate : ℚ) : ℚ :=
  if a.samples = [] then 0
  else
    let time_scaling := (a.sample_rate : ℚ) / target_sample_rate
    let adjusted_time := time_seconds * time_scaling
    let sample_pos := adjusted_time * (a.sample_rate : ℚ)
    let frame_index : ℕ := (⌊sample_pos⌋).toNat
    let sample_index := frame_index * a.channels
    if a.samples.length ≤ sample_index then 0
    else
      let current_sample :=
        if a.channels = 2 ∧ sample_index + 1 < a.samples.length then
          (a.samples.getD sample_index d + a.samples.getD (sample_index + 1) d) * (1/2)
        else a.samples.getD sample_index d
      let next_frame_index := frame_index + 1
      let next_sample_index := next_frame_index * a.channels
      if next_sample_index < a.samples.length then
        let next_sample :=
          if a.channels = 2 ∧ next_sample_index + 1 < a.samples.length then
            (a.samples.getD next_sample_index d + a.samples.getD (next_sample_index + 1) d)
              * (1/2)
          else a.samples.getD next_sample_index d
        let frac := sample_pos - (qtrunc sample_pos : ℚ)
        current_sample + (next_sample - current_sample) * frac
      else current_sample

/-- `AudioSample::get_sample_at_time` with the out-of-bounds default fixed
to 0 (any other choice gives the same function, see the safety theorem). -/
def AudioSample.get_sample_at_time (a : AudioSample)
    (time_seconds target_sample_rate : ℚ) : ℚ :=
  a.get_sample_at_time_d 0 time_seconds target_sample_rate

/-- Playback cursor, from `struct SamplePlayback` in src/audio_samples.rs. -/
structure SamplePlayback where
  sample : AudioSample
  start_time : ℚ
  volume : ℚ
  active : Bool
  deriving DecidableEq

/-- `SamplePlayback::new` from src/audio_samples.rs. -/
def SamplePlayback.new (sample : AudioSample) (start_time volume : ℚ) : SamplePlayback :=
  { sample := sample, start_time := start_time, volume := volume, active := true }

/-- `SamplePlayback::get_current_sample` from src/audio_samples.rs. -/
def SamplePlayback.get_current_sample (p : SamplePlayback)
    (current_time target_sample_rate : ℚ) : ℚ :=
  if p.active = false then 0
  else
    let elapsed := current_time - p.start_time
    if elapsed < 0 then 0
    else if p.sample.is_finished_at_sample_rate elapsed target_sample_rate then 0
    else p.sample.get_sample_at_time elapsed target_sample_rate * p.volume

/-- `SamplePlayback::stop` from src/audio_samples.rs. -/
def SamplePlayback.stop (p : SamplePlayback) : SamplePlayback :=
  { p with active := false }

/-- Rate limiter state, from `struct RateLimiter` in src/audio_engine.rs.
The `HashMap<String, Vec<Instant>>` is modelled as an association list of
rational timestamps. -/
structure RateLimiter where
  press_history : List (String × List ℚ)
  window_duration : ℚ
  volume_reduction_factor : ℚ
  deriving DecidableEq

/-- `RateLimiter::new` from src/audio_engine.rs: 500 ms window, factor 0.7. -/
def RateLimiter.new : RateLimiter :=
  { press_history := [], window_duration := 1/2, volume_reduction_factor := 7/10 }

/-- Lookup of a key's press history (empty when absent), modelling
`press_history.entry(key).or_insert_with(Vec::new)` reads. -/
def lookupHistory (h : List (String × List ℚ)) (key : String) : List ℚ :=
  ((h.find? (fun e => e.1 == key)).map Prod.snd).getD []

/-- Store a key's (possibly new) history back into the map, replacing the
existing entry or appending a fresh one, as `HashMap::entry` does. -/
def setHistory (key : String) (v : List ℚ) :
    List (String × List ℚ) → List (String × List ℚ)
  | [] => [(key, v)]
  | e :: rest => if e.1 = key then (key, v) :: rest else e :: setHistory key v rest

/-- The retention test `now.duration_since(press_time) <= window_duration` of
`RateLimiter::record_press_and_get_volume_multiplier`; `duration_since`
saturates to zero when the press is in the future. -/
def withinWindow (now window t : ℚ) : Prop :=
  max (now - t) 0 ≤ window

instance (now window t : ℚ) : Decidable (withinWindow now window t) := by
  unfold withinWindow; infer_instance

/-- `RateLimiter::record_press_and_get_volume_multiplier` from
src/audio_engine.rs, with the wall clock `Instant::now()` supplied as `now`:
prune entries older than the window, compute `factor ^ recent_count`, append
the current press, and return multiplier and updated state. -/
def RateLimiter.record_press_and_get_volume_multiplier (rl : RateLimiter)
    (key_id : String) (now : ℚ) : ℚ × RateLimiter :=
  let history := lookupHistory rl.press_history key_id
  let retained := history.filter (fun t => withinWindow now rl.window_duration t)
  let volume_multiplier := rl.volume_reduction_factor ^ retained.length
  (volume_multiplier,
    { rl with press_history := setHistory key_id (retained ++ [now]) rl.press_history })

/-- Mixer / voice-pool state, from `struct AudioState` in src/audio_engine.rs.
`Keycode` keys of `active_notes` are modelled as naturals; both hash maps are
association lists. -/
structure AudioState where
  active_notes : List (ℕ × NoteState)
  active_notes_by_id : List (String × NoteState)
  sample_rate : ℚ
  current_waveform : Waveform
  default_adsr : ADSRParams
  master_volume : ℚ
  filter_cutoff : ℚ
  rate_limiter : RateLimiter
  fart_sample : Option AudioSample
  active_sample_playbacks : List SamplePlayback
  global_time : ℚ
  deriving DecidableEq

/-- `HashMap::insert` on the string-keyed voice map: replace the entry under
the key when present, otherwise add it. -/
def insertNote (key : String) (v : NoteState) :
    List (String × NoteState) → List (String × NoteState)
  | [] => [(key, v)]
  | e :: rest => if e.1 = key then (key, v) :: rest else e :: insertNote key v rest

/-- `HashMap::get` on the string-keyed voice map. -/
def lookupNote (l : List (String × NoteState)) (key : String) : Option NoteState :=
  (l.find? (fun e => e.1 == key)).map Prod.snd

/-- Number of entries stored under a key (a `HashMap` keeps at most one). -/
def countKey (l : List (String × NoteState)) (key : String) : ℕ :=
  (l.filter (fun e => e.1 == key)).length

/-- `AudioState::start_note_with_id` from src/audio_engine.rs, with the wall
clock passed as `now` for the rate limiter: compute the rate-limit
multiplier, scale the requested volume by master volume and multiplier, and
either push a sample playback (Fart waveform with a loaded sample) or insert
a fresh `NoteState` under the identifier, returning the adjusted volume. -/
def AudioState.start_note_with_id (s : AudioState) (key_id : String)
    (frequency volume now : ℚ) : ℚ × AudioState :=
  let rm := s.rate_limiter.record_press_and_get_volume_multiplier key_id now
  let adjusted_volume := volume * s.master_volume * rm.1
  let s1 := { s with rate_limiter := rm.2 }
  match s.current_waveform, s.fart_sample with
  | Waveform.Fart, some fart_sample =>
      let playback := SamplePlayback.new fart_sample s.global_time adjusted_volume
      (adjusted_volume,
        { s1 with active_sample_playbacks := s1.active_sample_playbacks ++ [playback] })
  | _, _ =>
      let note_state :=
        NoteState.new frequency adjusted_volume s.default_adsr s.current_waveform
      (adjusted_volume,
        { s1 with active_notes_by_id := insertNote key_id note_state s1.active_notes_by_id })

/-- `AudioState::stop_note_with_id` from src/audio_engine.rs: ignored for the
Fart waveform, otherwise releases the voice under the identifier if any. -/
def AudioState.stop_note_with_id (s : AudioState) (id : String) : AudioState :=
  if s.current_waveform = Waveform.Fart then s
  else
    match lookupNote s.active_notes_by_id id with
    | none => s
    | some note =>
        { s with active_notes_by_id := insertNote id note.release s.active_notes_by_id }

/-- `ADSRParams::natural` from src/audio_engine.rs. -/
def ADSRParams.natural : ADSRParams :=
  ⟨1/50, 1/10, 7/10, 3/20⟩

/-- `ADSRParams::electronic` from src/audio_engine.rs. -/
def ADSRParams.electronic : ADSRParams :=
  ⟨1/100, 1/20, 8/10, 1/10⟩

/-- `ADSRParams::punchy` from src/audio_engine.rs. -/
def ADSRParams.punchy : ADSRParams :=
  ⟨1/200, 1/50, 6/10, 2/25⟩

/-- `ADSRParams::cyberpunk` from src/audio_engine.rs. -/
def ADSRParams.cyberpunk : ADSRParams :=
  ⟨3/100, 3/20, 13/20, 1/4⟩

/-- `ADSRParams::fart` from src/audio_engine.rs. -/
def ADSRParams.fart : ADSRParams :=
  ⟨1/100, 2/25, 3/4, 3/10⟩

/-- Number of previous presses of `key` still inside the rate-limiter window
at time `now` (the exponent used by
`RateLimiter::record_press_and_get_volume_multiplier`). -/
def recentCount (rl : RateLimiter) (key : String) (now : ℚ) : ℕ :=
  ((lookupHistory rl.press_history key).filter
    (fun t => withinWindow now rl.window_duration t)).length

/-- A fresh note whose ADSR has `attack_time = 0`. -/
def zeroAttackNote : NoteState :=
  NoteState.new 440 1 ⟨0, 1/10, 7/10, 1/10⟩ Waveform.Electronic

/-- A note sitting at the start of Decay whose ADSR has `decay_time = 0`. -/
def zeroDecayNote : NoteState :=
  { zeroAttackNote with
      envelope_state := EnvelopeState.Decay
      envelope_time := 0
      adsr := ⟨1/100, 0, 7/10, 1/10⟩ }

/-- A fresh note whose ADSR has `release_time = 0`. -/
def zeroReleaseNote : NoteState :=
  NoteState.new 440 1 ⟨1/100, 1/10, 7/10, 0⟩ Waveform.Electronic

/-- A fresh square-wave note at phase 0 (used with a long hold duration). -/
def heldNote : NoteState :=
  NoteState.new 1 1 ADSRParams.electronic Waveform.Square

/-- A note whose frequency (3) exceeds the sample rate it is ticked at (1). -/
def fastNote : NoteState :=
  NoteState.new 3 1 ADSRParams.electronic Waveform.Electronic

/-- A note whose frequency (1) is below the sample rate it is ticked at (4). -/
def slowNote : NoteState :=
  NoteState.new 1 1 ADSRParams.electronic Waveform.Electronic

/-- A pool with master volume 0.01, an empty voice map and no Fart sample. -/
def noThresholdPool : AudioState :=
  { active_notes := []
    active_notes_by_id := []
    sample_rate := 44100
    current_waveform := Waveform.Electronic
    default_adsr := ADSRParams.electronic
    master_volume := 1/100
    filter_cutoff := 1200
    rate_limiter := RateLimiter.new
    fart_sample := none
    active_sample_playbacks := []
    global_time := 0 }

/-- A pool holding exactly one voice, under the identifier `"k"`. -/
def onePool : AudioState :=
  { noThresholdPool with
      master_volume := 1
      active_notes_by_id := [("k", slowNote)] }

/-- A fresh note with attack 0.02 s, decay 0.01 s, sustain 0.5, release
0.01 s, ticked at sample rate 100 in the lifecycle witness. -/
def lifecycleNote : NoteState :=
  NoteState.new 440 (1/2) ⟨1/50, 1/100, 1/2, 1/100⟩ Waveform.Electronic

/-- A stopped playback over a tiny mono buffer. -/
def inactivePlayback : SamplePlayback :=
  { sample := ⟨[1, 1/2, 0, -1/2, -1], 44100, 1⟩
    start_time := 0
    volume := 4/5
    active := false }

/-- The state component of `NoteState::generate_sample` is exactly
`NoteState.tickState`. -/
theorem NoteState.generate_sample_snd (st : NoteState)
    (sample_rate hold_duration envelope_multiplier : ℚ) :
    (st.generate_sample sample_rate hold_duration envelope_multiplier).2
      = st.tickState sample_rate hold_duration := rfl

/-- Claim C10: `release()` sends every envelope to Release; from a state not
yet releasing it resets the elapsed time to 0, from a state already in
Release it changes nothing at all, and hence a repeated call is the same as
a single call (release progress never restarts). -/
theorem release_idempotent (st : NoteState) :
    st.release.envelope_state = EnvelopeState.Release
    ∧ (st.envelope_state ≠ EnvelopeState.Release →
        st.release
          = { st with envelope_state := EnvelopeState.Release, envelope_time := 0 })
    ∧ (st.envelope_state = EnvelopeState.Release → st.release = st)
    ∧ st.release.release = st.release := by
  by_cases h : st.envelope_state = EnvelopeState.Release <;>
    simp [NoteState.release, h]

/-- Claim C10 witness: `release` on a concrete freshly attacking note. -/
theorem release_idempotent_witness :
    slowNote.release
      = { slowNote with
            envelope_state := EnvelopeState.Release, envelope_time := 0 }
    ∧ slowNote.release.release = slowNote.release :=
  ⟨(release_idempotent slowNote).2.1 (by decide),
    (release_idempotent slowNote).2.2.2⟩

/-- Claim C5: non-positive durations never divide by zero (the transition
guards fire before any quotient is needed): with `attack_time ≤ 0` the first
update tick leaves Attack with multiplier 1, with `decay_time ≤ 0` the first
Decay tick moves to Sustain returning the sustain level, and with
`release_time = 0` the first update after `release()` returns 0 (in f32 the
progress `dt / 0.0` is `+∞ ≥ 1`) so the voice reports finished on that
tick. -/
theorem envelope_zero_durations (st : NoteState) (dt : ℚ) (hdt : 0 < dt) :
    (st.envelope_state = EnvelopeState.Attack → st.envelope_time = 0 →
      st.adsr.attack_time ≤ 0 →
      (st.update_envelope dt).1 = 1
        ∧ ((st.update_envelope dt).2).envelope_state = EnvelopeState.Decay)
    ∧ (st.envelope_state = EnvelopeState.Decay → st.envelope_time = 0 →
      st.adsr.decay_time ≤ 0 →
      (st.update_envelope dt).1 = st.adsr.sustain_level
        ∧ ((st.update_envelope dt).2).envelope_state = EnvelopeState.Sustain)
    ∧ (st.envelope_state ≠ EnvelopeState.Release → st.adsr.release_time = 0 →
      ((st.release).update_envelope dt).1 = 0
        ∧ (((st.release).update_envelope dt).2).is_finished
            ((st.release).update_envelope dt).1) := by
  refine ⟨?_, ?_, ?_⟩
  · intro h1 h2 h3
    have hcond : st.adsr.attack_time ≤ st.envelope_time + dt := by
      rw [h2]; linarith
    simp [NoteState.update_envelope, h1, hcond]
  · intro h1 h2 h3
    have hcond : st.adsr.decay_time ≤ st.envelope_time + dt := by
      rw [h2]; linarith
    simp [NoteState.update_envelope, h1, hcond]
  · intro h1 h2
    have hrel : st.release
        = { st with envelope_state := EnvelopeState.Release, envelope_time := 0 } := by
      simp [NoteState.release, h1]
    rw [hrel]
    simp [NoteState.update_envelope, divGE1, h2, hdt, NoteState.is_finished]

/-- Claim C5 witness: instant transitions on concrete zero-duration notes. -/
theorem envelope_zero_durations_witness :
    ((zeroAttackNote.update_envelope (1/10)).1 = 1
      ∧ ((zeroAttackNote.update_envelope (1/10)).2).envelope_state
          = EnvelopeState.Decay)
    ∧ ((zeroDecayNote.update_envelope (1/10)).1 = zeroDecayNote.adsr.sustain_level
      ∧ ((zeroDecayNote.update_envelope (1/10)).2).envelope_state
          = EnvelopeState.Sustain)
    ∧ (((zeroReleaseNote.release).update_envelope (1/10)).1 = 0
      ∧ (((zeroReleaseNote.release).update_envelope (1/10)).2).is_finished
          (((zeroReleaseNote.release).update_envelope (1/10)).1)) :=
  ⟨(envelope_zero_durations zeroAttackNote (1/10) (by norm_num)).1
      (by decide) (by decide) (by decide),
    (envelope_zero_durations zeroDecayNote (1/10) (by norm_num)).2.1
      (by decide) (by decide) (by decide),
    (envelope_zero_durations zeroReleaseNote (1/10) (by norm_num)).2.2
      (by decide) (by decide)⟩

/-- Claim C2 (amended): one tick returns the waveform sample at the current
phase and frequency multiplied by base_volume, by the envelope multiplier,
and additionally by the updated smooth hold-duration volume, and advances
the phase by frequency/sample_rate with a single wrapping subtraction. -/
theorem tick_sample_factors (st : NoteState) (sample_rate hold_duration m : ℚ) :
    (st.generate_sample sample_rate hold_duration m).1
      = Waveform.generate_sample st.waveform (st.phase : ℝ) (st.frequency : ℝ)
          (sample_rate : ℝ)
        * (st.base_volume : ℝ) * (m : ℝ)
        * (((st.update_smooth_hold_volume sample_rate hold_duration).current_hold_volume : ℝ))
    ∧ ((st.generate_sample sample_rate hold_duration m).2).phase
        = wrapPhase (st.phase + st.frequency / sample_rate) :=
  ⟨rfl, rfl⟩

/-- Claim C2 counterexample: for a note held for 10 seconds the returned
sample is not `waveform · base_volume · m` — the smooth hold-duration volume
(here 7/8 after one tick at sample rate 4) also multiplies the output. -/
theorem tick_extra_factor_cex :
    (heldNote.generate_sample 4 10 1).1
      ≠ Waveform.generate_sample heldNote.waveform (heldNote.phase : ℝ)
          (heldNote.frequency : ℝ) ((4 : ℚ) : ℝ)
        * (heldNote.base_volume : ℝ) * (((1 : ℚ) : ℝ)) := by
  have hw : Waveform.generate_sample Waveform.Square ((0 : ℚ) : ℝ)
      ((1 : ℚ) : ℝ) ((4 : ℚ) : ℝ) = 1 := by
    simp [Waveform.generate_sample, generate_square, fract32, truncR]
    norm_num
  have hph : heldNote.phase = 0 := rfl
  have hfr : heldNote.frequency = 1 := rfl
  have hwf : heldNote.waveform = Waveform.Square := rfl
  have hbv : heldNote.base_volume = 1 := rfl
  have hchv :
      (heldNote.update_smooth_hold_volume 4 10).current_hold_volume = 7/8 := by
    norm_num [NoteState.update_smooth_hold_volume, holdTargetVolume, heldNote,
      NoteState.new, ADSRParams.electronic, max_def]
  simp only [NoteState.generate_sample, hph, hfr, hwf, hbv, hchv, hw]
  norm_num

/-- Claim C4 (amended): provided the frequency does not exceed the sample
rate, the phase stays in [0,1) across a tick; the single wrapping
subtraction then suffices. -/
theorem tick_phase_in_unit_interval (st : NoteState) (sample_rate hold_duration m : ℚ)
    (h0 : 0 ≤ st.phase) (h1 : st.phase < 1)
    (hf : 0 < st.frequency) (hfr : st.frequency ≤ sample_rate) :
    0 ≤ ((st.generate_sample sample_rate hold_duration m).2).phase
    ∧ ((st.generate_sample sample_rate hold_duration m).2).phase < 1 := by
  rw [NoteState.generate_sample_snd]
  have hr : 0 < sample_rate := lt_of_lt_of_le hf hfr
  have hdiv0 : 0 < st.frequency / sample_rate := div_pos hf hr
  have hdiv1 : st.frequency / sample_rate ≤ 1 := (div_le_one hr).mpr hfr
  have hphase : (st.tickState sample_rate hold_duration).phase
      = wrapPhase (st.phase + st.frequency / sample_rate) := rfl
  rw [hphase]
  unfold wrapPhase
  split_ifs with h <;> constructor <;> linarith

/-- Claim C4 witness: a concrete tick at frequency 1 and sample rate 4. -/
theorem tick_phase_in_unit_interval_witness :
    0 ≤ ((slowNote.generate_sample 4 0 1).2).phase
    ∧ ((slowNote.generate_sample 4 0 1).2).phase < 1 :=
  tick_phase_in_unit_interval slowNote 4 0 1 (by decide) (by decide)
    (by decide) (by decide)

/-- Claim C4 counterexample: at frequency 3 and sample rate 1 (frequency
above the sample rate) the single wrapping subtraction leaves the phase at
2, outside [0,1). -/
theorem tick_phase_wrap_cex :
    (0 : ℚ) < fastNote.frequency
    ∧ 0 ≤ fastNote.phase ∧ fastNote.phase < 1
    ∧ ¬ ((fastNote.generate_sample 1 0 1).2).phase < 1 := by
  rw [NoteState.generate_sample_snd]
  refine ⟨by decide, by decide, by decide, ?_⟩
  norm_num [NoteState.tickState, NoteState.update_smooth_hold_volume,
    holdTargetVolume, wrapPhase, fastNote, NoteState.new, ADSRParams.electronic,
    max_def, min_def]

/-- Looking up the key just inserted returns the inserted voice. -/
theorem lookupNote_insertNote (key : String) (v : NoteState) :
    ∀ l, lookupNote (insertNote key v l) key = some v := by
  intro l
  induction l with
  | nil => simp [insertNote, lookupNote]
  | cons e rest ih =>
      by_cases h : e.1 = key
      · simp [insertNote, lookupNote, h]
      · simpa [insertNote, lookupNote, h] using ih

/-- Inserting under a key that is already present keeps the map size. -/
theorem insertNote_length (key : String) (v : NoteState) :
    ∀ l, 1 ≤ countKey l key → (insertNote key v l).length = l.length := by
  intro l
  induction l with
  | nil => simp [countKey]
  | cons e rest ih =>
      intro hmem
      by_cases h : e.1 = key
      · simp [insertNote, h]
      · have : 1 ≤ countKey rest key := by
          simpa [countKey, List.filter_cons, h] using hmem
        simp [insertNote, h, ih this]

/-- Inserting under a key that is already present keeps the number of
entries stored under that key. -/
theorem insertNote_countKey (key : String) (v : NoteState) :
    ∀ l, 1 ≤ countKey l key →
      countKey (insertNote key v l) key = countKey l key := by
  intro l
  induction l with
  | nil => simp [countKey]
  | cons e rest ih =>
      intro hmem
      by_cases h : e.1 = key
      · simp [insertNote, countKey, List.filter_cons, h]
      · have : 1 ≤ countKey rest key := by
          simpa [countKey, List.filter_cons, h] using hmem
        simp [insertNote, countKey, List.filter_cons, h,
          ih this] at ih ⊢
        simpa [countKey] using ih this

/-- Claim C1 (amended): `start_note_with_id` always returns
`volume · master_volume · rate-limiter discount`, and — except for the Fart
waveform with a loaded sample, which starts a sample playback instead — it
always creates/replaces the voice under the identifier, no matter how small
that product is; the engine has no negligible-volume no-op. -/
theorem note_on_returned_volume (s : AudioState) (key_id : String)
    (frequency volume now : ℚ) :
    (s.start_note_with_id key_id frequency volume now).1
      = volume * s.master_volume
        * (s.rate_limiter.record_press_and_get_volume_multiplier key_id now).1
    ∧ (¬ (s.current_waveform = Waveform.Fart ∧ s.fart_sample ≠ none) →
        lookupNote ((s.start_note_with_id key_id frequency volume now).2).active_notes_by_id
            key_id
          = some (NoteState.new frequency
              (volume * s.master_volume
                * (s.rate_limiter.record_press_and_get_volume_multiplier key_id now).1)
              s.default_adsr s.current_waveform)) := by
  simp only [AudioState.start_note_with_id]
  cases hcw : s.current_waveform <;> cases hfs : s.fart_sample <;>
    refine ⟨rfl, fun hno => ?_⟩ <;>
    first
      | exact lookupNote_insertNote _ _ _
      | exact absurd ⟨rfl, by simp⟩ hno

/-- Claim C1 witness: concrete volume arithmetic on a one-voice pool. -/
theorem note_on_returned_volume_witness :
    (onePool.start_note_with_id "k" 440 (1/2) 0).1
      = 1/2 * onePool.master_volume
        * (onePool.rate_limiter.record_press_and_get_volume_multiplier "k" 0).1
    ∧ lookupNote ((onePool.start_note_with_id "k" 440 (1/2) 0).2).active_notes_by_id "k"
        = some (NoteState.new 440
            (1/2 * onePool.master_volume
              * (onePool.rate_limiter.record_press_and_get_volume_multiplier "k" 0).1)
            onePool.default_adsr onePool.current_waveform) :=
  ⟨(note_on_returned_volume onePool "k" 440 (1/2) 0).1,
    (note_on_returned_volume onePool "k" 440 (1/2) 0).2 (by decide)⟩

/-- Claim C1 counterexample: with master volume 0.01 the product
`0.5 · 0.01 · 1 = 0.005` is at or below the 0.01 threshold, yet the call is
not a no-op (a voice appears) and it returns 0.005 rather than 0. -/
theorem note_on_no_threshold_cex :
    (noThresholdPool.start_note_with_id "k" 440 (1/2) 0).1 ≤ 1/100
    ∧ (noThresholdPool.start_note_with_id "k" 440 (1/2) 0).1 ≠ 0
    ∧ ((noThresholdPool.start_note_with_id "k" 440 (1/2) 0).2).active_notes_by_id ≠ [] := by
  have hv : (noThresholdPool.start_note_with_id "k" 440 (1/2) 0).1 = 1/200 := by
    norm_num [AudioState.start_note_with_id,
      RateLimiter.record_press_and_get_volume_multiplier, lookupHistory,
      noThresholdPool, RateLimiter.new]
  refine ⟨by rw [hv]; norm_num, by rw [hv]; norm_num, ?_⟩
  simp [AudioState.start_note_with_id, noThresholdPool, insertNote]

/-- Claim C7: a `note_on` for an identifier that already owns a voice keeps
exactly one voice under that identifier and leaves the size of the
identifier-to-voice mapping unchanged (overwrite, not stacking). -/
theorem note_on_replaces (s : AudioState) (key_id : String)
    (frequency volume now : ℚ)
    (h : countKey s.active_notes_by_id key_id = 1) :
    countKey ((s.start_note_with_id key_id frequency volume now).2).active_notes_by_id
        key_id = 1
    ∧ ((s.start_note_with_id key_id frequency volume now).2).active_notes_by_id.length
        = s.active_notes_by_id.length := by
  simp only [AudioState.start_note_with_id]
  cases hcw : s.current_waveform <;> cases hfs : s.fart_sample <;>
    first
      | exact ⟨h, rfl⟩
      | exact ⟨by rw [insertNote_countKey key_id _ _ (by rw [h])]; exact h,
          insertNote_length key_id _ _ (by rw [h])⟩

/-- Claim C7 witness: replacing the single voice of a concrete pool. -/
theorem note_on_replaces_witness :
    countKey ((onePool.start_note_with_id "k" 550 (1/2) 0).2).active_notes_by_id "k" = 1
    ∧ ((onePool.start_note_with_id "k" 550 (1/2) 0).2).active_notes_by_id.length
        = onePool.active_notes_by_id.length :=
  note_on_replaces onePool "k" 550 (1/2) 0 (by decide)

/-- A bounds-checked buffer read does not depend on the out-of-bounds
default. -/
theorem getD_indep (l : List ℚ) (n : ℕ) (d : ℚ) (h : n < l.length) :
    l.getD n d = l.getD n 0 := by
  rw [List.getD_eq_getElem l d h, List.getD_eq_getElem l 0 h]

/-- Claim C9: a playback reads 0 when inactive, when queried before its
start time, and from the moment elapsed time reaches the rate-scaled buffer
duration; and the interpolating reads of `get_sample_at_time` never index
outside the buffer — its value does not depend on what an out-of-bounds
read would produce. -/
theorem sample_playback_safety (p : SamplePlayback)
    (current_time target_sample_rate : ℚ) :
    (p.active = false → p.get_current_sample current_time target_sample_rate = 0)
    ∧ (current_time - p.start_time < 0 →
        p.get_current_sample current_time target_sample_rate = 0)
    ∧ (p.sample.duration_at_sample_rate target_sample_rate
          ≤ current_time - p.start_time →
        p.get_current_sample current_time target_sample_rate = 0)
    ∧ (∀ (a : AudioSample) (d t r : ℚ),
        a.get_sample_at_time_d d t r = a.get_sample_at_time t r) := by
  refine ⟨?_, ?_, ?_, ?_⟩
  · intro h
    simp [SamplePlayback.get_current_sample, h]
  · intro h
    simp [SamplePlayback.get_current_sample, h]
  · intro h
    simp [SamplePlayback.get_current_sample,
      AudioSample.is_finished_at_sample_rate, h]
  · intro a d t r
    simp only [AudioSample.get_sample_at_time, AudioSample.get_sample_at_time_d]
    split_ifs
    all_goals try rfl
    all_goals repeat
      rw [getD_indep _ _ d
        (by first
          | assumption
          | exact Nat.not_le.mp (by assumption)
          | exact And.right (by assumption))]

/-- Claim C9 witness: a stopped playback reads 0. -/
theorem sample_playback_safety_witness :
    inactivePlayback.get_current_sample 0 44100 = 0 :=
  (sample_playback_safety inactivePlayback 0 44100).1 rfl

/-- Reading back the history just stored under a key returns it. -/
theorem lookupHistory_setHistory_same (key : String) (v : List ℚ) :
    ∀ h, lookupHistory (setHistory key v h) key = v := by
  intro h
  induction h with
  | nil => simp [setHistory, lookupHistory]
  | cons e rest ih =>
      by_cases he : e.1 = key
      · simp [setHistory, lookupHistory, he]
      · simpa [setHistory, lookupHistory, he] using ih

/-- Storing a history under one key does not change any other key's
history. -/
theorem lookupHistory_setHistory_other (key key2 : String) (hne : key2 ≠ key)
    (v : List ℚ) :
    ∀ h, lookupHistory (setHistory key v h) key2 = lookupHistory h key2 := by
  intro h
  induction h with
  | nil => simp [setHistory, lookupHistory, Ne.symm hne]
  | cons e rest ih =>
      by_cases he : e.1 = key
      · simp [setHistory, lookupHistory, he, Ne.symm hne]
      · by_cases he2 : e.1 = key2
        · simp [setHistory, lookupHistory, he, he2, hne]
        · simpa [setHistory, lookupHistory, he, he2] using ih

/-- Claim C8: the rate-limiter discount is
`reduction_factor ^ (prior presses of the same key still in the window)`;
a fresh identifier gets exactly 1, an immediate second press gets exactly
the factor (strictly below 1), a third rapid press gets the factor squared
(strictly smaller again), and presses of one identifier leave the discount
of any other identifier unchanged. -/
theorem rate_limiter_discount (rl : RateLimiter) (key key2 : String)
    (now1 now2 now3 now' : ℚ)
    (hf0 : 0 < rl.volume_reduction_factor) (hf1 : rl.volume_reduction_factor < 1)
    (hw : 0 ≤ rl.window_duration)
    (hfresh : lookupHistory rl.press_history key = [])
    (h21 : now2 - now1 ≤ rl.window_duration)
    (h31 : now3 - now1 ≤ rl.window_duration)
    (h32 : now3 - now2 ≤ rl.window_duration)
    (hk2 : key2 ≠ key) :
    (∀ (rl' : RateLimiter) (k : String) (n : ℚ),
      (rl'.record_press_and_get_volume_multiplier k n).1
        = rl'.volume_reduction_factor ^ recentCount rl' k n)
    ∧ (rl.record_press_and_get_volume_multiplier key now1).1 = 1
    ∧ (((rl.record_press_and_get_volume_multiplier key now1).2).record_press_and_get_volume_multiplier
          key now2).1
        = rl.volume_reduction_factor
    ∧ (((((rl.record_press_and_get_volume_multiplier key now1).2).record_press_and_get_volume_multiplier
          key now2).2).record_press_and_get_volume_multiplier key now3).1
        = rl.volume_reduction_factor ^ 2
    ∧ rl.volume_reduction_factor ^ 2 < rl.volume_reduction_factor
    ∧ rl.volume_reduction_factor < 1
    ∧ (((rl.record_press_and_get_volume_multiplier key now1).2).record_press_and_get_volume_multiplier
          key2 now').1
        = (rl.record_press_and_get_volume_multiplier key2 now').1 := by
  have hw1 : withinWindow now2 rl.window_duration now1 := max_le h21 hw
  have hw31 : withinWindow now3 rl.window_duration now1 := max_le h31 hw
  have hw32 : withinWindow now3 rl.window_duration now2 := max_le h32 hw
  refine ⟨fun rl' k n => rfl, ?_, ?_, ?_, ?_, hf1, ?_⟩
  · simp [RateLimiter.record_press_and_get_volume_multiplier, hfresh]
  · simp [RateLimiter.record_press_and_get_volume_multiplier, hfresh,
      lookupHistory_setHistory_same, hw1]
  · simp [RateLimiter.record_press_and_get_volume_multiplier, hfresh,
      lookupHistory_setHistory_same, hw1, hw31, hw32]
  · have hpos : 0 < rl.volume_reduction_factor * (1 - rl.volume_reduction_factor) :=
      mul_pos hf0 (sub_pos.mpr hf1)
    nlinarith [hpos]
  · simp [RateLimiter.record_press_and_get_volume_multiplier,
      lookupHistory_setHistory_other key key2 hk2]

/-- Claim C8 witness: three rapid presses of `"a"` on a fresh limiter give
discounts 1, then 0.7 on the second press, while `"b"` stays at 1. -/
theorem rate_limiter_discount_witness :
    (RateLimiter.new.record_press_and_get_volume_multiplier "a" 0).1 = 1
    ∧ (((RateLimiter.new.record_press_and_get_volume_multiplier "a" 0).2).record_press_and_get_volume_multiplier
          "a" (1/10)).1 = 7/10
    ∧ (((RateLimiter.new.record_press_and_get_volume_multiplier "a" 0).2).record_press_and_get_volume_multiplier
          "b" 0).1
        = (RateLimiter.new.record_press_and_get_volume_multiplier "b" 0).1 := by
  have h := rate_limiter_discount RateLimiter.new "a" "b" 0 (1/10) (1/5) 0
    (by norm_num [RateLimiter.new]) (by norm_num [RateLimiter.new])
    (by norm_num [RateLimiter.new]) rfl (by norm_num [RateLimiter.new])
    (by norm_num [RateLimiter.new]) (by norm_num [RateLimiter.new]) (by decide)
  exact ⟨h.2.1, h.2.2.1, h.2.2.2.2.2.2⟩

/-- In Attack, a tick that reaches the attack time returns 1 and moves to
Decay with elapsed time reset. -/
theorem update_envelope_attack_to_decay (st : NoteState) (dt : ℚ)
    (hs : st.envelope_state = EnvelopeState.Attack)
    (hge : st.adsr.attack_time ≤ st.envelope_time + dt) :
    st.update_envelope dt
      = (1, { st with envelope_state := EnvelopeState.Decay, envelope_time := 0 }) := by
  simp [NoteState.update_envelope, hs, hge]

/-- In Attack, a tick that stays short of the attack time returns the squared
progress and only advances the elapsed time. -/
theorem update_envelope_attack_stay (st : NoteState) (dt : ℚ)
    (hs : st.envelope_state = EnvelopeState.Attack)
    (hlt : st.envelope_time + dt < st.adsr.attack_time) :
    st.update_envelope dt
      = ((st.envelope_time + dt) / st.adsr.attack_time
          * ((st.envelope_time + dt) / st.adsr.attack_time),
        { st with envelope_time := st.envelope_time + dt }) := by
  simp [NoteState.update_envelope, hs, not_le.mpr hlt]

/-- In Decay, a tick that reaches the decay time returns the sustain level
and moves to Sustain with elapsed time reset. -/
theorem update_envelope_decay_to_sustain (st : NoteState) (dt : ℚ)
    (hs : st.envelope_state = EnvelopeState.Decay)
    (hge : st.adsr.decay_time ≤ st.envelope_time + dt) :
    st.update_envelope dt
      = (st.adsr.sustain_level,
        { st with envelope_state := EnvelopeState.Sustain, envelope_time := 0 }) := by
  simp [NoteState.update_envelope, hs, hge]

/-- In Decay, a tick that stays short of the decay time only advances the
elapsed time. -/
theorem update_envelope_decay_stay (st : NoteState) (dt : ℚ)
    (hs : st.envelope_state = EnvelopeState.Decay)
    (hlt : st.envelope_time + dt < st.adsr.decay_time) :
    st.update_envelope dt
      = (1 - (1 - st.adsr.sustain_level)
            * ((st.envelope_time + dt) / st.adsr.decay_time)
            * ((st.envelope_time + dt) / st.adsr.decay_time),
        { st with envelope_time := st.envelope_time + dt }) := by
  simp [NoteState.update_envelope, hs, not_le.mpr hlt]

/-- In Release with positive release time, a tick short of the release time
returns the decayed multiplier and only advances the elapsed time. -/
theorem update_envelope_release_stay (st : NoteState) (dt : ℚ)
    (hs : st.envelope_state = EnvelopeState.Release)
    (hrt : 0 < st.adsr.release_time)
    (hlt : st.envelope_time + dt < st.adsr.release_time) :
    st.update_envelope dt
      = (st.adsr.sustain_level
          * (1 - (st.envelope_time + dt) / st.adsr.release_time
              * ((st.envelope_time + dt) / st.adsr.release_time)),
        { st with envelope_time := st.envelope_time + dt }) := by
  have hguard : divGE1 (st.envelope_time + dt) st.adsr.release_time = false := by
    simp [divGE1, hrt, not_le.mpr hlt]
  simp [NoteState.update_envelope, hs, hguard]

/-- In Release with positive release time, a tick that reaches the release
time returns 0 (the removal signal). -/
theorem update_envelope_release_done (st : NoteState) (dt : ℚ)
    (hs : st.envelope_state = EnvelopeState.Release)
    (hrt : 0 < st.adsr.release_time)
    (hge : st.adsr.release_time ≤ st.envelope_time + dt) :
    st.update_envelope dt = (0, { st with envelope_time := st.envelope_time + dt }) := by
  have hguard : divGE1 (st.envelope_time + dt) st.adsr.release_time = true := by
    simp [divGE1, hrt, hge]
  simp [NoteState.update_envelope, hs, hguard]

/-- Iterating the envelope splits over addition of tick counts. -/
theorem envAfter_add (dt : ℚ) (st : NoteState) (m : ℕ) :
    ∀ n : ℕ, envAfter dt st (m + n) = envAfter dt (envAfter dt st m) n := by
  intro n
  induction n with
  | zero => rfl
  | succ k ih => simp [envAfter, Nat.add_succ, ih]

/-- While `k·dt` stays below the attack time, `k` ticks from a fresh Attack
state only accumulate elapsed time. -/
theorem attack_run (dt : ℚ) (st : NoteState) (hdt : 0 < dt)
    (hs : st.envelope_state = EnvelopeState.Attack) (h0 : st.envelope_time = 0) :
    ∀ k : ℕ, (k : ℚ) * dt < st.adsr.attack_time →
      envAfter dt st k = { st with envelope_time := (k : ℚ) * dt } := by
  intro k
  induction k with
  | zero =>
      intro _
      cases st
      simp_all [envAfter]
  | succ k ih =>
      intro hk
      have hcast : ((k + 1 : ℕ) : ℚ) = (k : ℚ) + 1 := by push_cast; ring
      have hk1 : (k : ℚ) * dt + dt < st.adsr.attack_time := by
        rw [hcast] at hk; linarith
      have hk' : (k : ℚ) * dt < st.adsr.attack_time := by linarith
      have harith : (k : ℚ) * dt + dt = ((k + 1 : ℕ) : ℚ) * dt := by push_cast; ring
      have step := update_envelope_attack_stay
        { st with envelope_time := (k : ℚ) * dt } dt (by simpa using hs)
        (by simpa using hk1)
      calc envAfter dt st (k + 1)
          = ((envAfter dt st k).update_envelope dt).2 := rfl
        _ = (({ st with envelope_time := (k : ℚ) * dt } : NoteState).update_envelope dt).2 := by
              rw [ih hk']
        _ = { st with envelope_time := (k : ℚ) * dt + dt } := by rw [step]
        _ = { st with envelope_time := ((k + 1 : ℕ) : ℚ) * dt } := by rw [harith]

/-- While `k·dt` stays below the decay time, `k` ticks from a fresh Decay
state only accumulate elapsed time. -/
theorem decay_run (dt : ℚ) (st : NoteState) (hdt : 0 < dt)
    (hs : st.envelope_state = EnvelopeState.Decay) (h0 : st.envelope_time = 0) :
    ∀ k : ℕ, (k : ℚ) * dt < st.adsr.decay_time →
      envAfter dt st k = { st with envelope_time := (k : ℚ) * dt } := by
  intro k
  induction k with
  | zero =>
      intro _
      cases st
      simp_all [envAfter]
  | succ k ih =>
      intro hk
      have hcast : ((k + 1 : ℕ) : ℚ) = (k : ℚ) + 1 := by push_cast; ring
      have hk1 : (k : ℚ) * dt + dt < st.adsr.decay_time := by
        rw [hcast] at hk; linarith
      have hk' : (k : ℚ) * dt < st.adsr.decay_time := by linarith
      have harith : (k : ℚ) * dt + dt = ((k + 1 : ℕ) : ℚ) * dt := by push_cast; ring
      have step := update_envelope_decay_stay
        { st with envelope_time := (k : ℚ) * dt } dt (by simpa using hs)
        (by simpa using hk1)
      calc envAfter dt st (k + 1)
          = ((envAfter dt st k).update_envelope dt).2 := rfl
        _ = (({ st with envelope_time := (k : ℚ) * dt } : NoteState).update_envelope dt).2 := by
              rw [ih hk']
        _ = { st with envelope_time := (k : ℚ) * dt + dt } := by rw [step]
        _ = { st with envelope_time := ((k + 1 : ℕ) : ℚ) * dt } := by rw [harith]

/-- While `k·dt` stays below a positive release time, `k` ticks from a fresh
Release state only accumulate elapsed time. -/
theorem release_run (dt : ℚ) (st : NoteState) (hdt : 0 < dt)
    (hs : st.envelope_state = EnvelopeState.Release) (h0 : st.envelope_time = 0)
    (hrt : 0 < st.adsr.release_time) :
    ∀ k : ℕ, (k : ℚ) * dt < st.adsr.release_time →
      envAfter dt st k = { st with envelope_time := (k : ℚ) * dt } := by
  intro k
  induction k with
  | zero =>
      intro _
      cases st
      simp_all [envAfter]
  | succ k ih =>
      intro hk
      have hcast : ((k + 1 : ℕ) : ℚ) = (k : ℚ) + 1 := by push_cast; ring
      have hk1 : (k : ℚ) * dt + dt < st.adsr.release_time := by
        rw [hcast] at hk; linarith
      have hk' : (k : ℚ) * dt < st.adsr.release_time := by linarith
      have harith : (k : ℚ) * dt + dt = ((k + 1 : ℕ) : ℚ) * dt := by push_cast; ring
      have step := update_envelope_release_stay
        { st with envelope_time := (k : ℚ) * dt } dt (by simpa using hs)
        (by simpa using hrt) (by simpa using hk1)
      calc envAfter dt st (k + 1)
          = ((envAfter dt st k).update_envelope dt).2 := rfl
        _ = (({ st with envelope_time := (k : ℚ) * dt } : NoteState).update_envelope dt).2 := by
              rw [ih hk']
        _ = { st with envelope_time := (k : ℚ) * dt + dt } := by rw [step]
        _ = { st with envelope_time := ((k + 1 : ℕ) : ℚ) * dt } := by rw [harith]

/-- Claim C3: for an envelope started in Attack with attack_time 0.02 s,
positive decay and release times and sustain level in [0,1], advanced in
fixed steps `dt`: the tick on which accumulated time first reaches the
attack time returns multiplier 1 and lands in Decay with elapsed time 0;
after a further decay time the transitioning tick returns the sustain level
and lands in Sustain; `release()` from Sustain enters Release with elapsed
time 0; and after a further release time the multiplier is 0 and the voice
reports finished.  (`ka`, `kd`, `kr` count the full ticks strictly inside
each phase, so tick `k+1` is the transitioning one.) -/
theorem envelope_adsr_lifecycle (st0 : NoteState) (dt d s r : ℚ)
    (hdt : 0 < dt) (hd : 0 < d) (hs0 : 0 ≤ s) (hs1 : s ≤ 1) (hr : 0 < r)
    (hstate : st0.envelope_state = EnvelopeState.Attack)
    (htime : st0.envelope_time = 0)
    (hadsr : st0.adsr = ⟨1/50, d, s, r⟩)
    (ka kd kr : ℕ)
    (hka : (ka : ℚ) * dt < 1/50) (hka2 : 1/50 ≤ ((ka : ℚ) + 1) * dt)
    (hkd : (kd : ℚ) * dt < d) (hkd2 : d ≤ ((kd : ℚ) + 1) * dt)
    (hkr : (kr : ℚ) * dt < r) (hkr2 : r ≤ ((kr : ℚ) + 1) * dt) :
    envMultAt dt st0 ka = 1
    ∧ (envAfter dt st0 (ka + 1)).envelope_state = EnvelopeState.Decay
    ∧ (envAfter dt st0 (ka + 1)).envelope_time = 0
    ∧ envMultAt dt st0 (ka + 1 + kd) = s
    ∧ (envAfter dt st0 (ka + 1 + kd + 1)).envelope_state = EnvelopeState.Sustain
    ∧ ((envAfter dt st0 (ka + 1 + kd + 1)).release).envelope_state
        = EnvelopeState.Release
    ∧ ((envAfter dt st0 (ka + 1 + kd + 1)).release).envelope_time = 0
    ∧ envMultAt dt ((envAfter dt st0 (ka + 1 + kd + 1)).release) kr = 0
    ∧ (envAfter dt ((envAfter dt st0 (ka + 1 + kd + 1)).release) (kr + 1)).is_finished
        (envMultAt dt ((envAfter dt st0 (ka + 1 + kd + 1)).release) kr) := by
  have hEka : envAfter dt st0 ka = { st0 with envelope_time := (ka : ℚ) * dt } :=
    attack_run dt st0 hdt hstate htime ka (by rw [hadsr]; exact hka)
  have hstepA :
      (({ st0 with envelope_time := (ka : ℚ) * dt } : NoteState).update_envelope dt)
        = (1, { st0 with envelope_state := EnvelopeState.Decay, envelope_time := 0 }) := by
    apply update_envelope_attack_to_decay
    · simpa using hstate
    · show st0.adsr.attack_time ≤ (ka : ℚ) * dt + dt
      rw [hadsr]
      show (1/50 : ℚ) ≤ (ka : ℚ) * dt + dt
      linarith [hka2]
  have c1 : envMultAt dt st0 ka = 1 := by
    unfold envMultAt
    rw [hEka, hstepA]
  have cA : envAfter dt st0 (ka + 1)
      = { st0 with envelope_state := EnvelopeState.Decay, envelope_time := 0 } := by
    show ((envAfter dt st0 ka).update_envelope dt).2 = _
    rw [hEka, hstepA]
  have hEkd : envAfter dt st0 (ka + 1 + kd)
      = { st0 with
            envelope_state := EnvelopeState.Decay
            envelope_time := (kd : ℚ) * dt } := by
    rw [envAfter_add, cA]
    exact decay_run dt _ hdt rfl rfl kd (by rw [show
      ({ st0 with envelope_state := EnvelopeState.Decay, envelope_time := 0 }
        : NoteState).adsr = st0.adsr from rfl, hadsr]; exact hkd)
  have hstepD :
      (({ st0 with
            envelope_state := EnvelopeState.Decay
            envelope_time := (kd : ℚ) * dt } : NoteState).update_envelope dt)
        = (s, { st0 with envelope_state := EnvelopeState.Sustain, envelope_time := 0 }) := by
    have h := update_envelope_decay_to_sustain
      ({ st0 with
          envelope_state := EnvelopeState.Decay
          envelope_time := (kd : ℚ) * dt } : NoteState) dt rfl
      (by show st0.adsr.decay_time ≤ (kd : ℚ) * dt + dt
          rw [hadsr]
          show d ≤ (kd : ℚ) * dt + dt
          linarith [hkd2])
    rw [h, show st0.adsr.sustain_level = s by rw [hadsr]]
  have c4 : envMultAt dt st0 (ka + 1 + kd) = s := by
    unfold envMultAt
    rw [hEkd, hstepD]
  have cS : envAfter dt st0 (ka + 1 + kd + 1)
      = { st0 with envelope_state := EnvelopeState.Sustain, envelope_time := 0 } := by
    show ((envAfter dt st0 (ka + 1 + kd)).update_envelope dt).2 = _
    rw [hEkd, hstepD]
  have cR : (envAfter dt st0 (ka + 1 + kd + 1)).release
      = { st0 with envelope_state := EnvelopeState.Release, envelope_time := 0 } := by
    rw [cS]
    simp [NoteState.release]
  have hEkr : envAfter dt ((envAfter dt st0 (ka + 1 + kd + 1)).release) kr
      = { st0 with
            envelope_state := EnvelopeState.Release
            envelope_time := (kr : ℚ) * dt } := by
    rw [cR]
    exact release_run dt _ hdt rfl rfl (by rw [show
      ({ st0 with envelope_state := EnvelopeState.Release, envelope_time := 0 }
        : NoteState).adsr = st0.adsr from rfl, hadsr]; exact hr)
      kr (by rw [show
      ({ st0 with envelope_state := EnvelopeState.Release, envelope_time := 0 }
        : NoteState).adsr = st0.adsr from rfl, hadsr]; exact hkr)
  have hstepR :
      (({ st0 with
            envelope_state := EnvelopeState.Release
            envelope_time := (kr : ℚ) * dt } : NoteState).update_envelope dt)
        = (0, { st0 with
            envelope_state := EnvelopeState.Release
            envelope_time := (kr : ℚ) * dt + dt }) := by
    apply update_envelope_release_done
    · rfl
    · show (0 : ℚ) < st0.adsr.release_time
      rw [hadsr]; exact hr
    · show st0.adsr.release_time ≤ (kr : ℚ) * dt + dt
      rw [hadsr]
      show r ≤ (kr : ℚ) * dt + dt
      linarith [hkr2]
  have c8 : envMultAt dt ((envAfter dt st0 (ka + 1 + kd + 1)).release) kr = 0 := by
    unfold envMultAt
    rw [hEkr, hstepR]
  have c9 : envAfter dt ((envAfter dt st0 (ka + 1 + kd + 1)).release) (kr + 1)
      = { st0 with
            envelope_state := EnvelopeState.Release
            envelope_time := (kr : ℚ) * dt + dt } := by
    show ((envAfter dt ((envAfter dt st0 (ka + 1 + kd + 1)).release) kr).update_envelope dt).2 = _
    rw [hEkr, hstepR]
  refine ⟨c1, by rw [cA], by rw [cA], c4, by rw [cS], by rw [cR], by rw [cR], c8, ?_⟩
  rw [c9, c8]
  exact ⟨rfl, le_refl 0⟩

/-- Claim C3 witness: at sample rate 100 the transitions land on ticks 2, 3
and (after release) 1, with multipliers 1, 0.5 and 0. -/
theorem envelope_adsr_lifecycle_witness :
    envMultAt (1/100) lifecycleNote 1 = 1
    ∧ (envAfter (1/100) lifecycleNote 2).envelope_state = EnvelopeState.Decay
    ∧ envMultAt (1/100) lifecycleNote 2 = 1/2
    ∧ (envAfter (1/100) lifecycleNote 3).envelope_state = EnvelopeState.Sustain
    ∧ envMultAt (1/100) ((envAfter (1/100) lifecycleNote 3).release) 0 = 0 := by
  have h := envelope_adsr_lifecycle lifecycleNote (1/100) (1/100) (1/2) (1/100)
    (by norm_num) (by norm_num) (by norm_num) (by norm_num) (by norm_num)
    rfl rfl rfl 1 0 0
    (by norm_num) (by norm_num) (by norm_num) (by norm_num) (by norm_num)
    (by norm_num)
  exact ⟨h.1, h.2.1, h.2.2.2.1, h.2.2.2.2.1, h.2.2.2.2.2.2.2.1⟩

/-- The hyperbolic tangent stays within [-1, 1]. -/
theorem abs_tanh_le_one (x : ℝ) : |Real.tanh x| ≤ 1 := by
  rw [Real.tanh_eq_sinh_div_cosh, abs_div, abs_of_pos (Real.cosh_pos x),
    div_le_one (Real.cosh_pos x)]
  nlinarith [Real.cosh_sq x, sq_abs (Real.sinh x), Real.cosh_pos x,
    abs_nonneg (Real.sinh x)]

/-- A tanh-clipped signal scaled by a factor in [0, 2] stays within
[-2, 2]. -/
theorem tanh_scaled_bound (x c : ℝ) (hc0 : 0 ≤ c) (hc2 : c ≤ 2) :
    |Real.tanh x * c| ≤ 2 := by
  rw [abs_mul, abs_of_nonneg hc0]
  nlinarith [abs_tanh_le_one x, abs_nonneg (Real.tanh x)]

/-- A tanh-clipped signal scaled by two nonneg factors whose product is at
most 2 stays within [-2, 2]. -/
theorem tanh_scaled2_bound (x c1 c2 : ℝ) (h1 : 0 ≤ c1) (h2 : 0 ≤ c2)
    (h12 : c1 * c2 ≤ 2) :
    |Real.tanh x * c1 * c2| ≤ 2 := by
  rw [abs_mul, abs_mul, abs_of_nonneg h1, abs_of_nonneg h2]
  nlinarith [abs_tanh_le_one x, abs_nonneg (Real.tanh x),
    mul_nonneg (sub_nonneg.mpr (abs_tanh_le_one x)) (mul_nonneg h1 h2)]

/-- A weighted mix of five signals in [-1, 1] with the natural-piano weights
stays within [-2, 2]. -/
theorem natural_mix_bound (a b c d e : ℝ)
    (ha : -1 ≤ a) (ha' : a ≤ 1) (hb : -1 ≤ b) (hb' : b ≤ 1)
    (hc : -1 ≤ c) (hc' : c ≤ 1) (hd : -1 ≤ d) (hd' : d ≤ 1)
    (he : -1 ≤ e) (he' : e ≤ 1) :
    |(a * 0.7 + b * 0.3) + c * 0.3 + d * 0.2 + e * 0.1| ≤ 2 := by
  rw [abs_le]
  constructor <;> nlinarith

/-- Claim C6: every waveform kind produces a (finite, since it is a real
number built from sines, hyperbolic tangents and rational operations)
sample within [-2, 2] for phase in [0,1), frequency in (0, sample_rate/2]
and positive sample rate. -/
theorem waveform_output_bounded (w : Waveform) (phase frequency sample_rate : ℝ)
    (hp0 : 0 ≤ phase) (hp1 : phase < 1)
    (hf0 : 0 < frequency) (hf1 : frequency ≤ sample_rate / 2)
    (hr : 0 < sample_rate) :
    |w.generate_sample phase frequency sample_rate| ≤ 2 := by
  have hfr : fract32 phase = phase := by
    unfold fract32 truncR
    rw [if_pos hp0, Int.floor_eq_zero_iff.mpr ⟨hp0, hp1⟩]
    simp
  cases w with
  | Natural =>
      simp only [Waveform.generate_sample, generate_natural_piano]
      exact natural_mix_bound _ _ _ _ _
        (Real.neg_one_le_sin _) (Real.sin_le_one _)
        (Real.neg_one_le_sin _) (Real.sin_le_one _)
        (Real.neg_one_le_sin _) (Real.sin_le_one _)
        (Real.neg_one_le_sin _) (Real.sin_le_one _)
        (Real.neg_one_le_sin _) (Real.sin_le_one _)
  | Electronic =>
      simp only [Waveform.generate_sample, generate_sine]
      exact le_trans (Real.abs_sin_le_one _) (by norm_num)
  | Saw =>
      simp only [Waveform.generate_sample, generate_sawtooth]
      rw [abs_le]
      constructor <;> nlinarith [Int.floor_le phase, Int.lt_floor_add_one phase]
  | Square =>
      simp only [Waveform.generate_sample, generate_square]
      split_ifs <;> norm_num
  | Cyberpunk =>
      simp only [Waveform.generate_sample, generate_cyberpunk]
      exact tanh_scaled_bound _ _ (by norm_num) (by norm_num)
  | Triangle =>
      simp only [Waveform.generate_sample, generate_triangle, hfr]
      split_ifs with h <;> rw [abs_le] <;> constructor <;> linarith
  | Fart =>
      simp only [Waveform.generate_sample, generate_fart]
      exact le_trans (abs_tanh_le_one _) (by norm_num)
  | Bass =>
      simp only [Waveform.generate_sample, generate_bass]
      exact tanh_scaled2_bound _ _ _ (by norm_num) (by norm_num) (by norm_num)

/-- Claim C6 witness: the sine waveform at phase 0, frequency 1, rate 4. -/
theorem waveform_output_bounded_witness :
    |Waveform.generate_sample Waveform.Electronic 0 1 4| ≤ 2 :=
  waveform_output_bounded Waveform.Electronic 0 1 4 (by norm_num) (by norm_num)
    (by norm_num) (by norm_num) (by norm_num)

end CodeBeats
